import Mathlib

/-
Verification of the OpenTrace crawler (Go) against its natural-language
specification.

Shallow embedding conventions:
* Go strings are modelled as Lean `String` (a list of characters); the byte
  indices used by `strings.Index` on ASCII patterns coincide with character
  indices in this model.
* Go `int` fields are modelled as `Int`; the atomic `int32` results counter is
  modelled as `Int` (the crawl never approaches 2^31 increments, and no claim
  concerns that overflow).
* Go slices that can be `nil` are modelled as `Option (List _)`: `none` is the
  nil slice, `some []` the non-nil empty slice.  Go maps that can be `nil`
  are modelled as `Option (List (key × value))`.
* Fallible external I/O (the HTTP round trip inside `FetchPage`) is modelled
  by an explicit outcome value `HttpEvent` handed to the embedded function.
* The concurrent engine `CrawlStream` (crawler.go) is modelled twice, from the
  same source lines:
  - `Step` / `Reachable`: an interleaved small-step transition system in which
    every access to shared state (queue, visited map, atomic counter, output
    channel, in-flight wait group) is a separate atomic action, exactly in the
    order the worker body performs them;
  - `seqRun`: the canonical sequential schedule (each dequeued item is fully
    processed before the next dequeue; no cancellation fires), used for the
    concrete end-to-end scenarios.
-/

/-! ## String helpers (models of the Go standard library functions used) -/

/-- Model of the whitespace class used by Go `strings.TrimSpace`
(`unicode.IsSpace`), restricted to its Latin-1 rows; the claims never involve
whitespace outside this set. -/
def isSpaceGo (c : Char) : Bool :=
  c == ' ' || c == '\t' || c == '\n' || c == '\r' ||
  c == '\x0b' || c == '\x0c' || c == '\u0085' || c == ' '

/-- Model of Go `strings.TrimSpace`: drop leading and trailing whitespace. -/
def trimSpace (s : String) : String :=
  ⟨((s.data.dropWhile isSpaceGo).reverse.dropWhile isSpaceGo).reverse⟩

/-- Model of Go `strings.Index pat`: index of the first occurrence of `p`
in the list, or `none` (Go returns `-1`). -/
def strIndex (p : List Char) : List Char → Option Nat
  | [] => if p.isPrefixOf ([] : List Char) then some 0 else none
  | c :: t =>
    if p.isPrefixOf (c :: t) then some 0
    else (strIndex p t).map (· + 1)

/-- Split a list at the first occurrence of `p`, returning the part before the
occurrence and the part after it.  This is the decomposition the spec's words
describe ("locate the first occurrence of `<title>` … return the substring up
to the next `</title>`"). -/
def splitFirst (p : List Char) : List Char → Option (List Char × List Char)
  | [] => if p.isPrefixOf ([] : List Char) then some ([], ([] : List Char).drop p.length) else none
  | c :: t =>
    if p.isPrefixOf (c :: t) then some ([], (c :: t).drop p.length)
    else (splitFirst p t).map (fun q => (c :: q.1, q.2))

/-- The opening tag searched for by `extractTitle`. -/
def titleOpenTag : List Char := "<title>".data

/-- The closing tag searched for by `extractTitle`. -/
def titleCloseTag : List Char := "</title>".data

/-! ## Title extractor (fetcher.go / part_004 `extractTitle`) -/

/-- Embedding of `extractTitle` (identical in go_crawler/fetcher.go:113-128 and
part_004:138-153): find the first `"<title>"`, skip its 7 characters, find the
next `"</title>"` in the remainder, slice between them, trim whitespace;
either search failing yields the literal `"No Title"`. -/
def extractTitle (html : String) : String :=
  let h := html.data
  match strIndex titleOpenTag h with
  | none => "No Title"
  | some titleStart0 =>
    let titleStart := titleStart0 + 7
    match strIndex titleCloseTag (h.drop titleStart) with
    | none => "No Title"
    | some titleEnd => trimSpace ⟨(h.drop titleStart).take titleEnd⟩

/-- The title extractor written from the spec's words (spec §4.2): locate the
first occurrence of `<title>`; if absent, the placeholder; otherwise take the
text up to the next `</title>` (placeholder if that is absent), trimmed. -/
def extractTitleSpec (html : String) : String :=
  match splitFirst titleOpenTag html.data with
  | none => "No Title"
  | some q =>
    match splitFirst titleCloseTag q.2 with
    | none => "No Title"
    | some r => trimSpace ⟨r.1⟩

/-! ## URL normalization (crawler.go:278-280) -/

/-- Embedding of the visited-set key function in `CrawlStream`
(crawler.go:278-280): `strings.TrimRight(url, "/")`, i.e. remove every
trailing `'/'`. -/
def normalizeURL (s : String) : String :=
  ⟨(s.data.reverse.dropWhile (· == '/')).reverse⟩

/-! ## Domain classifier (part_004:220-231 `extractDomain`) -/

/-- Characters at which the authority component of a hierarchical URL ends. -/
def isHostStop (c : Char) : Bool :=
  c == '/' || c == '?' || c == '#'

/-- Model of Go `url.URL.Hostname()` on an authority string without userinfo
or IPv6 brackets: the text before the last `':'` (the port separator) if a
`':'` is present, the whole string otherwise. -/
def stripPort (a : List Char) : List Char :=
  if a.contains ':' then ((a.reverse.dropWhile (fun c => !(c == ':'))).drop 1).reverse
  else a

/-- Hostname of the text following `"://"`: the authority runs to the first
`'/'`, `'?'` or `'#'`, and the port (if any) is stripped. -/
def hostFrom (cs : List Char) : List Char :=
  stripPort (cs.takeWhile (fun c => !(isHostStop c)))

/-- The scheme/authority separator. -/
def schemeSep : List Char := "://".data

/-- Model of `url.Parse(rawurl)` followed by `.Hostname()`, restricted to the
fragment of URLs the crawler handles: a hierarchical URL `scheme://authority…`
yields the authority's hostname; a URL with no `"://"` (relative reference or
opaque form such as `mailto:`) has an empty host, as in `net/url`. -/
def hostOf (cs : List Char) : List Char :=
  match strIndex schemeSep cs with
  | some i => hostFrom (cs.drop (i + 3))
  | none => []

/-- The `"www."` marker stripped by the domain classifier. -/
def wwwDot : List Char := "www.".data

/-- Embedding of `extractDomain` (part_004:220-231): parse the URL, take the
hostname, and drop one leading `"www."` if present.  (The legacy string-based
variant in go_crawler/fetcher.go:209-224 does not strip `"www."`; the claims
about the domain classifier concern this, the spec'd version.) -/
def extractDomain (rawurl : String) : String :=
  let host := hostOf rawurl.data
  if wwwDot.isPrefixOf host then ⟨host.drop 4⟩ else ⟨host⟩

/-- The same-site test used by `categorizeLinks` (part_004:210):
`linkDomain == baseDomain` after `extractDomain` on both sides. -/
def sameSite (u v : String) : Prop :=
  extractDomain u = extractDomain v

/-- Characters allowed in the hosts over which the `www.`-symmetry claim is
stated (letters, digits, dots, hyphens): such hosts contain none of the
authority delimiters `'/'`, `':'`, `'?'`, `'#'`, `'@'`. -/
def isHostChar (c : Char) : Bool :=
  c.isAlphanum || c == '.' || c == '-'

/-- Embedding of `categorizeLinks` (part_004:205-218): partition the links,
preserving order, into those whose domain equals the base URL's domain and
the rest. -/
def categorizeLinks (links : List String) (baseURL : String) : List String × List String :=
  let baseDomain := extractDomain baseURL
  links.foldl
    (fun acc link =>
      if extractDomain link = baseDomain then (acc.1 ++ [link], acc.2)
      else (acc.1, acc.2 ++ [link]))
    ([], [])

/-! ## Configuration (types.go:8-16, part_001:102-139) -/

/-- Embedding of `CrawlConfig` (types.go:8-16). -/
structure CrawlConfig where
  targetURL : String
  maxDepth : Int
  maxLinks : Int
  timeout : String
  maxConcurrency : Int
  userAgent : String
  respectRobots : Bool
deriving DecidableEq

/-- Embedding of `setDefaults` (part_001:102-119): each zero-valued field is
replaced by its default.  The checks are sequential in the source but touch
disjoint fields. -/
def setDefaults (c : CrawlConfig) : CrawlConfig :=
  let c := if c.timeout = "" then { c with timeout := "30s" } else c
  let c := if c.maxConcurrency = 0 then { c with maxConcurrency := 10 } else c
  let c := if c.userAgent = "" then { c with userAgent := "ThreatCrawler/1.0" } else c
  let c := if c.maxLinks = 0 then { c with maxLinks := 100 } else c
  if c.maxDepth = 0 then { c with maxDepth := 3 } else c

/-- Embedding of `validateConfig` (part_001:122-139): the first failing check
produces its error message; `none` means the configuration is valid. -/
def validateConfig (c : CrawlConfig) : Option String :=
  if c.targetURL = "" then some "target_url is required"
  else if c.maxDepth < 0 then some "max_depth must be >= 0"
  else if c.maxLinks ≤ 0 then some "max_links must be > 0"
  else if c.maxConcurrency ≤ 0 then some "max_concurrency must be > 0"
  else if c.timeout = "" then some "timeout is required"
  else none

/-- Embedding of the JSON-configuration path (part_001:28-37 together with
`readConfig`, part_001:73-100): the decoded configuration passes through
`setDefaults` first and is then validated; the crawl uses the defaulted
configuration. -/
def loadConfig (c : CrawlConfig) : Except String CrawlConfig :=
  let c := setDefaults c
  match validateConfig c with
  | some msg => .error msg
  | none => .ok c

/-! ## Fetch records (types.go:19-30) -/

/-- Embedding of `CrawlResult` (types.go:19-30).  The `Discovered` timestamp
is omitted (wall-clock time, carried by no claim).  `headers`, `links`,
`internalLinks` and `externalLinks` are `Option`s because the corresponding
Go map/slices can be nil. -/
structure CrawlResult where
  url : String
  status : Int
  title : String
  depth : Int
  headers : Option (List (String × String))
  links : Option (List String)
  internalLinks : Option (List String)
  externalLinks : Option (List String)
  error : String
deriving DecidableEq

/-- An item of the `CrawlStream` work queue (crawler.go:264-268). -/
structure QueueItem where
  url : String
  depth : Int
  parent : String
deriving DecidableEq

/-- Go map assignment `m[k] = v` on the association-list model of a header
map: replace the value of an existing key, otherwise append the binding. -/
def hdrSet (hs : List (String × String)) (k v : String) : List (String × String) :=
  if hs.any (fun p => p.1 == k) then
    hs.map (fun p => if p.1 == k then (k, v) else p)
  else hs ++ [(k, v)]

/-- The record preparation a `CrawlStream` worker performs after a non-nil
fetch (crawler.go:321-326): set the depth from the queue item, materialise a
nil header map, and record the parent URL under the `"Parent-URL"` key. -/
def withMeta (r : CrawlResult) (depth : Int) (parent : String) : CrawlResult :=
  { r with
    depth := depth
    headers := some (hdrSet (r.headers.getD []) "Parent-URL" parent) }

/-! ## Fetcher (part_004:49-128 `FetchPage`) -/

/-- Outcome of the HTTP interaction inside one `FetchPage` call, the external
input of the embedded function:
* `reqError`: `http.NewRequestWithContext` failed;
* `doError`: `client.Do` failed (DNS, connect, TLS, or context cancellation
  before the response headers arrived);
* `readError`: the response arrived with the given status and headers but
  `io.ReadAll` on the body failed (read error or cancellation mid-body);
* `ok`: status, headers (multi-valued) and full body were received. -/
inductive HttpEvent where
  | reqError (msg : String)
  | doError (msg : String)
  | readError (status : Int) (headers : List (String × List String)) (msg : String)
  | ok (status : Int) (headers : List (String × List String)) (body : String)
deriving DecidableEq

/-- The outcomes the spec calls transport errors before a response exists:
request construction and round-trip failures. -/
def isTransportFail : HttpEvent → Bool
  | .reqError _ => true
  | .doError _ => true
  | _ => false

/-- Embedding of `FetchPage` (part_004:49-128), parametrised by the link
extractor `ext` (part_004's `extractLinks` builds on the `x/net/html` parser
and stays abstract here; it returns `none` for a nil slice).  The function
returns the record together with the Go `error` return value, which is always
`nil` (`none`): every failure is embedded in the record.  On `reqError` /
`doError` the record carries status 0; on `readError` it carries the received
response's status; each error path formats its message with the prefix the
source uses and leaves the remaining fields at their zero values (nil slices,
nil map).  On success multi-valued headers are joined with `", "`, the title
and links are extracted, the links are partitioned by `categorizeLinks`, and
the three link slices are replaced by empty slices when nil
(part_004:107-116). -/
def fetchPage (ext : String → String → Option (List String)) (url : String)
    (ev : HttpEvent) : CrawlResult × Option String :=
  match ev with
  | .reqError msg =>
    ({ url := url, status := 0, title := "", depth := 0, headers := none,
       links := none, internalLinks := none, externalLinks := none,
       error := "Failed to create request: " ++ msg }, none)
  | .doError msg =>
    ({ url := url, status := 0, title := "", depth := 0, headers := none,
       links := none, internalLinks := none, externalLinks := none,
       error := "Request failed: " ++ msg }, none)
  | .readError status _ msg =>
    ({ url := url, status := status, title := "", depth := 0, headers := none,
       links := none, internalLinks := none, externalLinks := none,
       error := "Failed to read response: " ++ msg }, none)
  | .ok status hs body =>
    let headers := hs.map (fun kv => (kv.1, String.intercalate ", " kv.2))
    let links0 := ext body url
    let cat := categorizeLinks (links0.getD []) url
    ({ url := url, status := status, title := extractTitle body, depth := 0,
       headers := some headers,
       links := some (links0.getD []),
       internalLinks := some cat.1,
       externalLinks := some cat.2,
       error := "" }, none)

/-! ## Crawl engine, sequential schedule (crawler.go:263-432 `CrawlStream`) -/

/-- The shared state of `CrawlStream` visible to the sequential schedule. -/
structure SeqState where
  visited : List String
  resultsCount : Int
  emitted : List CrawlResult
  queue : List QueueItem
deriving DecidableEq

/-- The child-enqueue loop (crawler.go:342-360) under the sequential schedule:
every link of `result.Links` whose normalized form is not in the visited set
is appended to the queue at depth `d` with the current URL as parent.  The
visited set is only read here; insertion happens at claim time.  (The queue's
capacity of `2 × max_links` is never reached in the scenarios proved below,
so the blocking send always completes.) -/
def enqueueChildren (vis : List String) (links : List String) (d : Int)
    (parent : String) : List QueueItem :=
  (links.filter (fun l => !(vis.contains (normalizeURL l)))).map
    (fun l => ⟨l, d, parent⟩)

/-- One worker's per-item processing (crawler.go:298-363) under the sequential
schedule, in source order: depth gate; visited lookup; visited insertion;
fetch (dropping a nil record); depth/parent metadata; atomic counter
increment with the over-limit drop; emission; and the guarded child-enqueue
(`resultsCount < MaxLinks && depth < MaxDepth`, ranging over all of
`result.Links`). -/
def processItem (cfg : CrawlConfig) (fetch : String → Option CrawlResult)
    (st : SeqState) (it : QueueItem) : SeqState :=
  if it.depth > cfg.maxDepth then st
  else if st.visited.contains (normalizeURL it.url) then st
  else
    let st := { st with visited := st.visited.insert (normalizeURL it.url) }
    match fetch it.url with
    | none => st
    | some r =>
      let r := withMeta r it.depth it.parent
      let count := st.resultsCount + 1
      let st := { st with resultsCount := count }
      if count > cfg.maxLinks then st
      else
        let st := { st with emitted := st.emitted ++ [r] }
        if count < cfg.maxLinks ∧ it.depth < cfg.maxDepth then
          { st with
            queue := st.queue ++
              enqueueChildren st.visited (r.links.getD []) (it.depth + 1) it.url }
        else st

/-- The engine state after seeding (crawler.go:368-370): the queue holds the
seed item `{target_url, 0, ""}` and nothing has been visited or emitted. -/
def seqInit (cfg : CrawlConfig) : SeqState :=
  { visited := [], resultsCount := 0, emitted := [], queue := [⟨cfg.targetURL, 0, ""⟩] }

/-- Run the engine under the canonical sequential schedule: repeatedly pop the
head of the queue and process it until the queue is empty (or the fuel runs
out, which it never does in the bounded scenarios proved below). -/
def seqRun (cfg : CrawlConfig) (fetch : String → Option CrawlResult) :
    Nat → SeqState → SeqState
  | 0, st => st
  | n + 1, st =>
    match st.queue with
    | [] => st
    | it :: q => seqRun cfg fetch n (processItem cfg fetch { st with queue := q } it)

/-! ## Crawl engine, interleaved semantics (crawler.go:263-432 `CrawlStream`) -/

/-- Program counter of one `CrawlStream` worker inside its per-item closure
(crawler.go:283-366).  Each constructor marks the point just before the next
access to shared state. -/
inductive WorkerPC where
  | idle
  | working (item : QueueItem)
  | claimed (item : QueueItem)
  | fetched (item : QueueItem) (r : CrawlResult)
  | sendReady (item : QueueItem) (r : CrawlResult)
  | postEmit (item : QueueItem) (links : List String)
  | expanding (item : QueueItem) (links : List String)
  | childAdd (item : QueueItem) (links : List String) (l : String)
  | exited
deriving DecidableEq

/-- Program counter of the termination supervisor (crawler.go:379-422).
The 10-second hard-exit valve (`os.Exit(2)`) is a real-time escape outside
the model; modelled runs are those in which `inFlight.Wait()` returns. -/
inductive MonitorPC where
  | waitWorkers
  | draining
  | waitInFlight
  | finished
deriving DecidableEq

/-- The shared state of one `CrawlStream` run under interleaved execution. -/
structure EState where
  visited : List String
  resultsCount : Int
  queue : List QueueItem
  emitted : List CrawlResult
  workers : List WorkerPC
  inFlight : Int
  cancelled : Bool
  doneSig : Bool
  monitor : MonitorPC
  onceUsed : Bool
  closeEvents : Nat

/-- Whether a worker sits between the counter gate and the output send. -/
def isSend : WorkerPC → Bool
  | .sendReady _ _ => true
  | _ => false

/-- Number of workers between the counter gate and the output send. -/
def sendCount (ws : List WorkerPC) : Nat :=
  ws.countP isSend

/-- The state of `CrawlStream` after its setup (crawler.go:368-376): the seed
is enqueued with one in-flight credit and `MaxConcurrency` workers wait at
their select loops; nothing is visited, emitted, cancelled, or closed. -/
def initState (cfg : CrawlConfig) : EState :=
  { visited := [], resultsCount := 0,
    queue := [⟨cfg.targetURL, 0, ""⟩],
    emitted := [],
    workers := List.replicate cfg.maxConcurrency.toNat .idle,
    inFlight := 1, cancelled := false, doneSig := false,
    monitor := .waitWorkers, onceUsed := false, closeEvents := 0 }

/-- Interleaved small-step semantics of `CrawlStream` (crawler.go:263-432).
Each constructor is one atomic access to shared state:
* `cancel`: one of the three cancellation sources fires (deadline, inactivity
  watchdog, interrupt; main.go:36-86);
* `forceDone`: the forced-shutdown monitor closes `done` (crawler.go:425-431);
* `workerExit`: an idle worker takes the `ctx.Done`/`done` select branch;
* `dequeue`: a worker receives an item from the queue (crawler.go:298);
* `dropDepth`: the depth gate (crawler.go:304-306);
* `readSeen` / `readUnseen`: the visited lookup under the read lock
  (crawler.go:308-313);
* `claimFetchNone` / `claimFetchSome`: the visited insertion under the write
  lock — with no re-check, exactly as in crawler.go:315-317 — followed by the
  fetch and, for a non-nil record, the metadata preparation
  (crawler.go:320-326);
* `gateFail` / `gatePass`: the atomic increment-and-test of `resultsCount`
  (crawler.go:328-331); the counter is never decremented;
* `emitAbort` / `emitSend`: the guarded send on `out` (crawler.go:333-339);
* `expandFail` / `expandPass`: the enqueue guard
  `resultsCount < MaxLinks && depth < MaxDepth` over `result.Links`
  (crawler.go:341);
* `childSeen` / `childUnseen`: the per-link visited lookup and the
  `inFlight.Add(1)` (crawler.go:343-348);
* `childSend` / `childAbort`: the guarded queue send, whose cancellation arms
  undo the `Add` and abandon the item (crawler.go:349-358); the queue buffer
  holds at most `2 × MaxLinks` items (crawler.go:272);
* `expandDone`: the links are exhausted and the deferred `inFlight.Done()`
  for the item runs (crawler.go:300);
* `monitorDrainStart` / `drainOne` / `drainFinish`: the supervisor waits for
  every worker to exit, then drains the queue — one `inFlight.Done()` per
  drained item, and only when the context was cancelled (crawler.go:379-403);
* `closeOut`: `inFlight.Wait()` returns and the supervisor closes the output
  stream through the `sync.Once` guard (crawler.go:407-421). -/
inductive Step (cfg : CrawlConfig) (fetch : String → Option CrawlResult) :
    EState → EState → Prop
  | cancel (s : EState) :
      Step cfg fetch s { s with cancelled := true }
  | forceDone (s : EState) :
      s.cancelled = true →
      Step cfg fetch s { s with doneSig := true }
  | workerExit (s : EState) (l₁ l₂ : List WorkerPC) :
      s.workers = l₁ ++ WorkerPC.idle :: l₂ →
      (s.cancelled = true ∨ s.doneSig = true) →
      Step cfg fetch s { s with workers := l₁ ++ WorkerPC.exited :: l₂ }
  | dequeue (s : EState) (l₁ l₂ : List WorkerPC) (it : QueueItem) (q : List QueueItem) :
      s.workers = l₁ ++ WorkerPC.idle :: l₂ →
      s.queue = it :: q →
      Step cfg fetch s { s with workers := l₁ ++ WorkerPC.working it :: l₂, queue := q }
  | dropDepth (s : EState) (l₁ l₂ : List WorkerPC) (it : QueueItem) :
      s.workers = l₁ ++ WorkerPC.working it :: l₂ →
      it.depth > cfg.maxDepth →
      Step cfg fetch s { s with workers := l₁ ++ WorkerPC.idle :: l₂,
                                inFlight := s.inFlight - 1 }
  | readSeen (s : EState) (l₁ l₂ : List WorkerPC) (it : QueueItem) :
      s.workers = l₁ ++ WorkerPC.working it :: l₂ →
      ¬ it.depth > cfg.maxDepth →
      normalizeURL it.url ∈ s.visited →
      Step cfg fetch s { s with workers := l₁ ++ WorkerPC.idle :: l₂,
                                inFlight := s.inFlight - 1 }
  | readUnseen (s : EState) (l₁ l₂ : List WorkerPC) (it : QueueItem) :
      s.workers = l₁ ++ WorkerPC.working it :: l₂ →
      ¬ it.depth > cfg.maxDepth →
      normalizeURL it.url ∉ s.visited →
      Step cfg fetch s { s with workers := l₁ ++ WorkerPC.claimed it :: l₂ }
  | claimFetchNone (s : EState) (l₁ l₂ : List WorkerPC) (it : QueueItem) :
      s.workers = l₁ ++ WorkerPC.claimed it :: l₂ →
      fetch it.url = none →
      Step cfg fetch s { s with workers := l₁ ++ WorkerPC.idle :: l₂,
                                visited := s.visited.insert (normalizeURL it.url),
                                inFlight := s.inFlight - 1 }
  | claimFetchSome (s : EState) (l₁ l₂ : List WorkerPC) (it : QueueItem) (r : CrawlResult) :
      s.workers = l₁ ++ WorkerPC.claimed it :: l₂ →
      fetch it.url = some r →
      Step cfg fetch s
        { s with workers := l₁ ++ WorkerPC.fetched it (withMeta r it.depth it.parent) :: l₂,
                 visited := s.visited.insert (normalizeURL it.url) }
  | gateFail (s : EState) (l₁ l₂ : List WorkerPC) (it : QueueItem) (r : CrawlResult) :
      s.workers = l₁ ++ WorkerPC.fetched it r :: l₂ →
      s.resultsCount + 1 > cfg.maxLinks →
      Step cfg fetch s { s with workers := l₁ ++ WorkerPC.idle :: l₂,
                                resultsCount := s.resultsCount + 1,
                                inFlight := s.inFlight - 1 }
  | gatePass (s : EState) (l₁ l₂ : List WorkerPC) (it : QueueItem) (r : CrawlResult) :
      s.workers = l₁ ++ WorkerPC.fetched it r :: l₂ →
      ¬ s.resultsCount + 1 > cfg.maxLinks →
      Step cfg fetch s { s with workers := l₁ ++ WorkerPC.sendReady it r :: l₂,
                                resultsCount := s.resultsCount + 1 }
  | emitAbort (s : EState) (l₁ l₂ : List WorkerPC) (it : QueueItem) (r : CrawlResult) :
      s.workers = l₁ ++ WorkerPC.sendReady it r :: l₂ →
      (s.cancelled = true ∨ s.doneSig = true) →
      Step cfg fetch s { s with workers := l₁ ++ WorkerPC.idle :: l₂,
                                inFlight := s.inFlight - 1 }
  | emitSend (s : EState) (l₁ l₂ : List WorkerPC) (it : QueueItem) (r : CrawlResult) :
      s.workers = l₁ ++ WorkerPC.sendReady it r :: l₂ →
      Step cfg fetch s { s with workers := l₁ ++ WorkerPC.postEmit it (r.links.getD []) :: l₂,
                                emitted := s.emitted ++ [r] }
  | expandFail (s : EState) (l₁ l₂ : List WorkerPC) (it : QueueItem) (ls : List String) :
      s.workers = l₁ ++ WorkerPC.postEmit it ls :: l₂ →
      ¬ (s.resultsCount < cfg.maxLinks ∧ it.depth < cfg.maxDepth) →
      Step cfg fetch s { s with workers := l₁ ++ WorkerPC.idle :: l₂,
                                inFlight := s.inFlight - 1 }
  | expandPass (s : EState) (l₁ l₂ : List WorkerPC) (it : QueueItem) (ls : List String) :
      s.workers = l₁ ++ WorkerPC.postEmit it ls :: l₂ →
      s.resultsCount < cfg.maxLinks →
      it.depth < cfg.maxDepth →
      Step cfg fetch s { s with workers := l₁ ++ WorkerPC.expanding it ls :: l₂ }
  | childSeen (s : EState) (l₁ l₂ : List WorkerPC) (it : QueueItem) (l : String) (ls : List String) :
      s.workers = l₁ ++ WorkerPC.expanding it (l :: ls) :: l₂ →
      normalizeURL l ∈ s.visited →
      Step cfg fetch s { s with workers := l₁ ++ WorkerPC.expanding it ls :: l₂ }
  | childUnseen (s : EState) (l₁ l₂ : List WorkerPC) (it : QueueItem) (l : String) (ls : List String) :
      s.workers = l₁ ++ WorkerPC.expanding it (l :: ls) :: l₂ →
      normalizeURL l ∉ s.visited →
      Step cfg fetch s { s with workers := l₁ ++ WorkerPC.childAdd it ls l :: l₂,
                                inFlight := s.inFlight + 1 }
  | childSend (s : EState) (l₁ l₂ : List WorkerPC) (it : QueueItem) (l : String) (ls : List String) :
      s.workers = l₁ ++ WorkerPC.childAdd it ls l :: l₂ →
      (s.queue.length : Int) < 2 * cfg.maxLinks →
      Step cfg fetch s { s with workers := l₁ ++ WorkerPC.expanding it ls :: l₂,
                                queue := s.queue ++ [⟨l, it.depth + 1, it.url⟩] }
  | childAbort (s : EState) (l₁ l₂ : List WorkerPC) (it : QueueItem) (l : String) (ls : List String) :
      s.workers = l₁ ++ WorkerPC.childAdd it ls l :: l₂ →
      (s.cancelled = true ∨ s.doneSig = true) →
      Step cfg fetch s { s with workers := l₁ ++ WorkerPC.idle :: l₂,
                                inFlight := s.inFlight - 2 }
  | expandDone (s : EState) (l₁ l₂ : List WorkerPC) (it : QueueItem) :
      s.workers = l₁ ++ WorkerPC.expanding it [] :: l₂ →
      Step cfg fetch s { s with workers := l₁ ++ WorkerPC.idle :: l₂,
                                inFlight := s.inFlight - 1 }
  | monitorDrainStart (s : EState) :
      s.monitor = MonitorPC.waitWorkers →
      (∀ w ∈ s.workers, w = WorkerPC.exited) →
      Step cfg fetch s { s with monitor := MonitorPC.draining }
  | drainOne (s : EState) (it : QueueItem) (q : List QueueItem) :
      s.monitor = MonitorPC.draining →
      s.cancelled = true →
      s.queue = it :: q →
      Step cfg fetch s { s with queue := q, inFlight := s.inFlight - 1 }
  | drainFinish (s : EState) :
      s.monitor = MonitorPC.draining →
      (s.cancelled = false ∨ s.queue = []) →
      Step cfg fetch s { s with monitor := MonitorPC.waitInFlight }
  | closeOut (s : EState) :
      s.monitor = MonitorPC.waitInFlight →
      s.inFlight = 0 →
      Step cfg fetch s
        { s with monitor := MonitorPC.finished,
                 onceUsed := true,
                 closeEvents := if s.onceUsed then s.closeEvents else s.closeEvents + 1 }

/-- The states one `CrawlStream` run can reach from its initial state. -/
def Reachable (cfg : CrawlConfig) (fetch : String → Option CrawlResult)
    (s : EState) : Prop :=
  Relation.ReflTransGen (Step cfg fetch) (initState cfg) s

/-- Inductive invariant behind the `max_pages` cap: the records already
emitted plus the workers holding a granted emission token never exceed either
the counter or the cap. -/
def InvCap (cfg : CrawlConfig) (s : EState) : Prop :=
  (s.emitted.length : Int) + sendCount s.workers ≤ s.resultsCount ∧
  (s.emitted.length : Int) + sendCount s.workers ≤ cfg.maxLinks

/-- Inductive invariant behind the single close: the close body has run
exactly when the supervisor reached its final state. -/
def InvClose (s : EState) : Prop :=
  (s.monitor = MonitorPC.finished → s.closeEvents = 1 ∧ s.onceUsed = true) ∧
  (s.monitor ≠ MonitorPC.finished → s.closeEvents = 0 ∧ s.onceUsed = false)

/-! ## Concrete fixtures for the scenario claims -/

/-- The configuration of the cross-site scenario (spec §8, scenario 1):
`max_depth = 1`, `max_pages = 10`, seed `http://h/`. -/
def cfgScenario : CrawlConfig :=
  { targetURL := "http://h/", maxDepth := 1, maxLinks := 10, timeout := "30s",
    maxConcurrency := 10, userAgent := "", respectRobots := false }

/-- The seed page body of the cross-site scenario: a `200 OK` page whose links
are `/a`, `/b` and `http://other/x`. -/
def bodySeed : String :=
  "<html><title>Seed</title><a href=\"/a\"></a><a href=\"/b\"></a><a href=\"http://other/x\"></a></html>"

/-- The link extractor's output on the scenario pages: on the seed body the
three links resolved against `http://h/` (as part_004's `extractLinks`
resolves them), elsewhere the nil slice (no links found). -/
def extScenario : String → String → Option (List String) := fun body _ =>
  if body = bodySeed then some ["http://h/a", "http://h/b", "http://other/x"]
  else none

/-- The HTTP outcome of each fetch in the scenario: the seed returns `200 OK`
with `bodySeed`; every other page returns `200 OK` with an empty body. -/
def evScenario : String → HttpEvent := fun u =>
  if u = "http://h/" then .ok 200 [] bodySeed else .ok 200 [] ""

/-- The fetch oracle of the scenario, built from the embedded `fetchPage`
applied to each URL's HTTP outcome; like `FetchPage`, it never returns a nil
record. -/
def fetchScenario : String → Option CrawlResult := fun u =>
  some (fetchPage extScenario u (evScenario u)).1

/-- The configuration of the duplicate-emission race: two workers,
`max_depth = 1`, `max_pages = 10`, seed `http://h`. -/
def cfgRace : CrawlConfig :=
  { targetURL := "http://h", maxDepth := 1, maxLinks := 10, timeout := "30s",
    maxConcurrency := 2, userAgent := "", respectRobots := false }

/-- The seed record of the race scenario: a page whose link list contains
`http://h/x` and `http://h/x/` — two distinct strings with the same
normalized form, which `extractLinks` deduplicates only by exact string. -/
def rSeed : CrawlResult :=
  { url := "http://h", status := 200, title := "T", depth := 0, headers := none,
    links := some ["http://h/x", "http://h/x/"],
    internalLinks := some ["http://h/x", "http://h/x/"],
    externalLinks := some [], error := "" }

/-- The record fetched for `http://h/x` in the race scenario. -/
def rX : CrawlResult :=
  { url := "http://h/x", status := 200, title := "X", depth := 0, headers := none,
    links := some [], internalLinks := some [], externalLinks := some [], error := "" }

/-- The record fetched for `http://h/x/` in the race scenario. -/
def rXSlash : CrawlResult :=
  { url := "http://h/x/", status := 200, title := "X", depth := 0, headers := none,
    links := some [], internalLinks := some [], externalLinks := some [], error := "" }

/-- The fetch oracle of the race scenario. -/
def fetchRace : String → Option CrawlResult := fun u =>
  if u = "http://h" then some rSeed
  else if u = "http://h/x" then some rX
  else if u = "http://h/x/" then some rXSlash
  else none

/-- A configuration with `max_depth = 0` (spec §8: seed-only crawl). -/
def cfgDepthZero : CrawlConfig :=
  { targetURL := "http://seed.example/", maxDepth := 0, maxLinks := 5,
    timeout := "30s", maxConcurrency := 3, userAgent := "", respectRobots := false }

/-- A transport-failed seed record, as `FetchPage` produces on a DNS
failure. -/
def rFailSeed : CrawlResult :=
  (fetchPage (fun _ _ => none) "http://seed.example/"
    (.doError "dial tcp: lookup seed.example: no such host")).1

/-- The fetch oracle of the depth-zero run: the seed's fetch fails in
transport. -/
def fetchDepthZero : String → Option CrawlResult := fun _ => some rFailSeed

/-- A JSON configuration whose numeric fields are all explicitly zero. -/
def cfgAllZero : CrawlConfig :=
  { targetURL := "http://t/", maxDepth := 0, maxLinks := 0, timeout := "",
    maxConcurrency := 0, userAgent := "", respectRobots := false }

/-! ## Helper lemmas -/

/-- Relate the spec's first-occurrence decomposition to the code's
first-occurrence index. -/
theorem splitFirst_eq_strIndex (p : List Char) :
    ∀ h : List Char,
      splitFirst p h = (strIndex p h).map (fun i => (h.take i, h.drop (i + p.length)))
  | [] => by
    by_cases hp : p.isPrefixOf ([] : List Char) <;> simp [splitFirst, strIndex, hp]
  | c :: t => by
    by_cases hp : p.isPrefixOf (c :: t)
    · simp [splitFirst, strIndex, hp]
    · simp only [splitFirst, strIndex, hp, if_false]
      rw [splitFirst_eq_strIndex p t]
      cases hi : strIndex p t with
      | none => simp
      | some i =>
        have hdrop : (c :: t).drop (i + 1 + p.length) = t.drop (i + p.length) := by
          rw [Nat.add_right_comm]
          exact List.drop_succ_cons
        simp [hdrop]

/-- A string whose first summand is nonempty is nonempty. -/
theorem append_ne_empty_of_left (a b : String) (h : a.data ≠ []) : a ++ b ≠ "" := by
  intro e
  apply h
  have hd := congrArg String.data e
  rw [String.data_append] at hd
  exact (List.append_eq_nil.mp hd).1

/-! ## Claim theorems -/

/-- C8: for every HTML string, the title extractor returns the placeholder
`"No Title"` exactly when the string contains no `"<title>"`, or no
`"</title>"` after the first `"<title>"`; otherwise it returns the substring
between the end of the first `"<title>"` and the next `"</title>"`, trimmed
of leading and trailing whitespace.  Stated as: the embedded `extractTitle`
coincides with `extractTitleSpec`, the function written from exactly those
words. -/
theorem extractTitle_eq_spec (html : String) :
    extractTitle html = extractTitleSpec html := by
  simp only [extractTitle, extractTitleSpec]
  rw [splitFirst_eq_strIndex]
  cases h1 : strIndex titleOpenTag html.data with
  | none => rfl
  | some i =>
    simp only [Option.map_some']
    rw [splitFirst_eq_strIndex]
    have hlen : i + titleOpenTag.length = i + 7 := rfl
    rw [hlen]
    cases h2 : strIndex titleCloseTag (html.data.drop (i + 7)) with
    | none => rfl
    | some j => rfl

/-- C10: in the JSON-configuration path, `setDefaults` runs before
`validateConfig` and replaces each zero-valued numeric field with its default
(`max_depth` 0 becomes 3, `max_links` 0 becomes 100, `max_concurrency` 0
becomes 10); consequently a configuration whose `max_links` is 0 is never
rejected by the `max_links` validation check, and the configuration the crawl
receives is the defaulted one. -/
theorem setDefaults_zero_fields (c : CrawlConfig) :
    (c.maxDepth = 0 → (setDefaults c).maxDepth = 3) ∧
    (c.maxLinks = 0 → (setDefaults c).maxLinks = 100 ∧
      loadConfig c ≠ .error "max_links must be > 0") ∧
    (c.maxConcurrency = 0 → (setDefaults c).maxConcurrency = 10) ∧
    (∀ c₁, loadConfig c = .ok c₁ → c₁ = setDefaults c) := by
  have hdep : c.maxDepth = 0 → (setDefaults c).maxDepth = 3 := by
    intro h
    simp only [setDefaults]
    split_ifs <;> simp_all
  have hlinks : c.maxLinks = 0 → (setDefaults c).maxLinks = 100 := by
    intro h
    simp only [setDefaults]
    split_ifs <;> simp_all
  refine ⟨hdep, fun h => ⟨hlinks h, ?_⟩, ?_, ?_⟩
  · have h100 := hlinks h
    simp only [loadConfig, validateConfig]
    split_ifs with h1 h2 h3 h4 h5 <;> simp_all
  · intro h
    simp only [setDefaults]
    split_ifs <;> simp_all
  · intro c₁
    simp only [loadConfig]
    cases validateConfig (setDefaults c) with
    | none => intro h; cases h; rfl
    | some msg => intro h; cases h

/-- C4 counterexample: a body-read failure after a `200 OK` response yields a
record whose status is 200, not 0, with a populated error message — refuting
the claim that every transport-class failure (including body read) carries
status 0. -/
theorem fetchPage_readError_counterexample :
    ((fetchPage (fun _ _ => none) "http://h/"
        (.readError 200 [] "read tcp: connection reset")).1.status = 200) ∧
    ¬ ((fetchPage (fun _ _ => none) "http://h/"
        (.readError 200 [] "read tcp: connection reset")).1.status = 0) ∧
    ((fetchPage (fun _ _ => none) "http://h/"
        (.readError 200 [] "read tcp: connection reset")).1.error ≠ "") := by
  refine ⟨rfl, by decide, by decide⟩

/-- C4 (amended): for every context and URL, `FetchPage` returns a (non-nil)
record and a nil error; a failure of request construction or of the HTTP
round trip itself (DNS, connect, TLS, cancellation before the response)
yields status 0 and a non-empty error, while a body-read failure (including
cancellation mid-body) yields the received response's status together with a
non-empty error. -/
theorem fetchPage_never_fails (ext : String → String → Option (List String))
    (url : String) (ev : HttpEvent) :
    (fetchPage ext url ev).2 = none ∧
    (isTransportFail ev = true →
      (fetchPage ext url ev).1.status = 0 ∧ (fetchPage ext url ev).1.error ≠ "") ∧
    (∀ st hs msg, ev = .readError st hs msg →
      (fetchPage ext url ev).1.status = st ∧ (fetchPage ext url ev).1.error ≠ "") := by
  refine ⟨?_, ?_, ?_⟩
  · cases ev <;> rfl
  · intro htf
    cases ev with
    | reqError msg =>
      exact ⟨rfl, append_ne_empty_of_left "Failed to create request: " msg (by decide)⟩
    | doError msg =>
      exact ⟨rfl, append_ne_empty_of_left "Request failed: " msg (by decide)⟩
    | readError st hs msg => simp [isTransportFail] at htf
    | ok st hs body => simp [isTransportFail] at htf
  · intro st hs msg hev
    subst hev
    exact ⟨rfl, append_ne_empty_of_left "Failed to read response: " msg (by decide)⟩

/-- C4 witness: the amended theorem applied to a concrete transport failure. -/
theorem fetchPage_never_fails_witness :
    isTransportFail (.doError "dial tcp: no such host") = true ∧
    (fetchPage (fun _ _ => none) "http://unreachable.example/"
      (.doError "dial tcp: no such host")).1.status = 0 := by
  refine ⟨rfl, ?_⟩
  exact (fetchPage_never_fails (fun _ _ => none) "http://unreachable.example/"
    (.doError "dial tcp: no such host")).2.1 rfl |>.1

/-- C7: evaluation of `FetchPage` at a transport failure.  The record built on
the `client.Do` error path carries nil `links`, `internal_links` and
`external_links` slices (and a status-0 record with a populated error): the
error paths return before the nil-coalescing block at part_004:107-116, so
the non-null guarantee the spec states does not hold for transport-failure
records. -/
theorem fetchPage_transport_nil_links :
    ((fetchPage (fun _ _ => none) "http://unreachable.example/"
        (.doError "dial tcp: lookup unreachable.example: no such host")).1.links = none) ∧
    ((fetchPage (fun _ _ => none) "http://unreachable.example/"
        (.doError "dial tcp: lookup unreachable.example: no such host")).1.internalLinks = none) ∧
    ((fetchPage (fun _ _ => none) "http://unreachable.example/"
        (.doError "dial tcp: lookup unreachable.example: no such host")).1.externalLinks = none) ∧
    ((fetchPage (fun _ _ => none) "http://unreachable.example/"
        (.doError "dial tcp: lookup unreachable.example: no such host")).1.status = 0) := by
  exact ⟨rfl, rfl, rfl, rfl⟩

/-- A character of the host class is none of the authority delimiters. -/
theorem isHostChar_not_stop (c : Char) (h : isHostChar c = true) :
    (!(isHostStop c)) = true := by
  cases hs : isHostStop c
  · rfl
  · exfalso
    rcases (by simpa [isHostStop] using hs : (c = '/' ∨ c = '?') ∨ c = '#') with (e | e) | e <;>
      (subst e; simp [isHostChar] at h)

/-- `takeWhile` runs through a block of satisfying elements and stops at the
head of the remainder. -/
theorem takeWhile_block (p : Char → Bool) (xs ys : List Char)
    (hx : ∀ a ∈ xs, p a = true)
    (hy : ys = [] ∨ ∃ c q, ys = c :: q ∧ p c = false) :
    (xs ++ ys).takeWhile p = xs := by
  induction xs with
  | nil =>
    rcases hy with e | ⟨c, q, e, hc⟩
    · subst e; rfl
    · subst e; simp [List.takeWhile_cons_of_neg, hc]
  | cons a t ih =>
    have ha : p a = true := hx a (by simp)
    rw [List.cons_append, List.takeWhile_cons_of_pos ha]
    rw [ih (fun b hb => hx b (by simp [hb]))]

/-- A list of host-class characters contains no colon. -/
theorem hostchar_no_colon (h : List Char) (hh : ∀ c ∈ h, isHostChar c = true) :
    h.contains ':' = false := by
  cases hc : h.contains ':'
  · rfl
  · exfalso
    have : (':' : Char) ∈ h := List.elem_iff.mp hc
    have := hh ':' this
    simp [isHostChar] at this

/-- The hostname of `host ++ path` is the host, for a host of host-class
characters and a path that is empty or starts with `'/'`. -/
theorem hostFrom_hostchar (h p : List Char)
    (hh : ∀ c ∈ h, isHostChar c = true)
    (hp : p = [] ∨ ∃ q, p = '/' :: q) :
    hostFrom (h ++ p) = h := by
  have htake : (h ++ p).takeWhile (fun c => !(isHostStop c)) = h := by
    apply takeWhile_block
    · exact fun a ha => isHostChar_not_stop a (hh a ha)
    · rcases hp with e | ⟨q, e⟩
      · exact Or.inl e
      · exact Or.inr ⟨'/', q, e, rfl⟩
  have hcont : h.contains ':' = false := hostchar_no_colon h hh
  unfold hostFrom
  rw [htake]
  simp only [stripPort]
  rw [hcont]
  simp

/-- The host search skips the `"http://"` scheme marker. -/
theorem hostOf_http (rest : List Char) :
    hostOf ("http://".data ++ rest) = hostFrom rest := by
  have : "http://".data ++ rest = 'h' :: 't' :: 't' :: 'p' :: ':' :: '/' :: '/' :: rest := rfl
  rw [hostOf, this]
  simp [schemeSep, strIndex, List.isPrefixOf]

/-- `seqRun` is the identity once the queue is empty. -/
theorem seqRun_queue_nil (cfg : CrawlConfig) (fetch : String → Option CrawlResult)
    (n : Nat) (st : SeqState) (h : st.queue = []) :
    seqRun cfg fetch n st = st := by
  cases n with
  | zero => rfl
  | succ m => simp only [seqRun, h]

/-- C9 counterexample: for the host `"www.x"` — a host that itself begins with
`"www."` — the URL with host `"www.x"` and the URL with host `"www.www.x"`
are NOT classified same-site: the classifier strips only one `"www."`, so the
domains compare as `"x"` versus `"www.x"`.  This refutes the claim's
"for every host h". -/
theorem sameSite_www_counterexample :
    ¬ sameSite "http://www.x/" "http://www.www.x/" := by
  unfold sameSite
  decide

/-- C9 (amended): for every host `h` of ordinary host characters that does not
itself begin with `"www."`, and every path that is empty or starts with `'/'`,
the classifier assigns the URL with host `h` and the URL with host `"www." ++ h`
the same domain, so the two are classified same-site (same-site being, by
definition of the classifier, byte-equality of the stripped hosts). -/
theorem extractDomain_www_symmetric (h p : String)
    (hh : ∀ c ∈ h.data, isHostChar c = true)
    (hp : p.data = [] ∨ ∃ q, p.data = '/' :: q)
    (hw : wwwDot.isPrefixOf h.data = false) :
    extractDomain ("http://www." ++ h ++ p) = extractDomain ("http://" ++ h ++ p) ∧
    sameSite ("http://www." ++ h ++ p) ("http://" ++ h ++ p) := by
  have hwww : ∀ c ∈ 'w' :: 'w' :: 'w' :: '.' :: h.data, isHostChar c = true := by
    intro c hc
    rcases List.mem_cons.mp hc with e | hc
    · subst e; decide
    rcases List.mem_cons.mp hc with e | hc
    · subst e; decide
    rcases List.mem_cons.mp hc with e | hc
    · subst e; decide
    rcases List.mem_cons.mp hc with e | hc
    · subst e; decide
    · exact hh c hc
  have hdata1 : ("http://" ++ h ++ p).data = "http://".data ++ (h.data ++ p.data) := by
    rw [String.data_append, String.data_append, List.append_assoc]
  have hdata2 : ("http://www." ++ h ++ p).data
      = "http://".data ++ ('w' :: 'w' :: 'w' :: '.' :: (h.data ++ p.data)) := by
    rw [String.data_append, String.data_append]
    rfl
  have hhost1 : hostOf ("http://" ++ h ++ p).data = h.data := by
    rw [hdata1, hostOf_http]
    exact hostFrom_hostchar h.data p.data hh hp
  have hhost2 : hostOf ("http://www." ++ h ++ p).data = 'w' :: 'w' :: 'w' :: '.' :: h.data := by
    rw [hdata2, hostOf_http]
    have : 'w' :: 'w' :: 'w' :: '.' :: (h.data ++ p.data)
        = ('w' :: 'w' :: 'w' :: '.' :: h.data) ++ p.data := by simp
    rw [this]
    exact hostFrom_hostchar _ p.data hwww hp
  have heq : extractDomain ("http://www." ++ h ++ p) = extractDomain ("http://" ++ h ++ p) := by
    simp only [extractDomain]
    rw [hhost1, hhost2, hw]
    have hpre : wwwDot.isPrefixOf ('w' :: 'w' :: 'w' :: '.' :: h.data) = true := by
      simp [wwwDot, List.isPrefixOf]
    rw [hpre]
    simp
  exact ⟨heq, heq⟩

/-- C9 witness: the amended theorem applied to the spec's own example hosts
`a.com` and `www.a.com`. -/
theorem extractDomain_www_symmetric_witness :
    (∀ c ∈ "a.com".data, isHostChar c = true) ∧
    sameSite ("http://www." ++ "a.com" ++ "/") ("http://" ++ "a.com" ++ "/") := by
  refine ⟨by decide, ?_⟩
  exact (extractDomain_www_symmetric "a.com" "/" (by decide) (Or.inr ⟨[], rfl⟩) (by decide)).2

/-- C5 counterexample: in the run of `CrawlStream` on the scenario of spec §8
(seed `http://h/` with links `/a`, `/b`, `http://other/x`; `max_depth = 1`,
`max_pages = 10`) under the canonical sequential schedule, FOUR records are
emitted, and one of them is the record of the cross-site URL
`http://other/x` — because the engine enqueues every link of `result.Links`
(crawler.go:342), not only the same-site ones.  This refutes "exactly three
records" and "no record is emitted for the cross-site URL". -/
theorem crawlStream_crossSite_emitted :
    ((seqRun cfgScenario fetchScenario 8 (seqInit cfgScenario)).emitted.length = 4) ∧
    ("http://other/x" ∈
      (seqRun cfgScenario fetchScenario 8 (seqInit cfgScenario)).emitted.map
        (fun r => r.url)) := by
  exact ⟨rfl, by decide⟩

/-- C5 (amended): on the scenario of spec §8 (seed `http://h/` returning 200
with links `/a`, `/b`, `http://other/x`; `max_depth = 1`, `max_pages = 10`),
the engine emits exactly four records — the seed, `http://h/a`, `http://h/b`,
and the cross-site `http://other/x`, since discovered links are enqueued
regardless of site — and the seed's record partitions its links as
`internal_links = ["http://h/a", "http://h/b"]` and
`external_links = ["http://other/x"]`. -/
theorem crawlStream_scenario_records :
    ((seqRun cfgScenario fetchScenario 8 (seqInit cfgScenario)).emitted.map (fun r => r.url)
      = ["http://h/", "http://h/a", "http://h/b", "http://other/x"]) ∧
    ((seqRun cfgScenario fetchScenario 8 (seqInit cfgScenario)).emitted.head?.map
        (fun r => (r.internalLinks, r.externalLinks))
      = some (some ["http://h/a", "http://h/b"], some ["http://other/x"])) := by
  exact ⟨rfl, rfl⟩

/-- C6: for every configuration with `max_depth = 0` (and the positive
`max_pages` every valid configuration has), and every fetch outcome for the
seed — success or transport failure — exactly one record is emitted: the
seed's record at depth 0 with an empty parent, because the child-enqueue
guard `depth < max_depth` fails at depth 0. -/
theorem depth_zero_emits_seed_only (cfg : CrawlConfig)
    (fetch : String → Option CrawlResult) (r : CrawlResult) (n : Nat)
    (hd : cfg.maxDepth = 0) (hl : 1 ≤ cfg.maxLinks)
    (hf : fetch cfg.targetURL = some r) :
    (seqRun cfg fetch (n + 1) (seqInit cfg)).emitted = [withMeta r 0 ""] := by
  simp only [seqRun, seqInit]
  rw [processItem]
  simp only [hd, hf]
  rw [if_neg (by omega : ¬ (0 : Int) > 0)]
  rw [if_neg (by simp : ¬ ([] : List String).contains (normalizeURL cfg.targetURL) = true)]
  rw [if_neg (by omega : ¬ (0 : Int) + 1 > cfg.maxLinks)]
  rw [if_neg (by omega : ¬ ((0 : Int) + 1 < cfg.maxLinks ∧ (0 : Int) < 0))]
  rw [seqRun_queue_nil] <;> rfl

/-- Replacing one worker's program counter by one with the same send status
leaves the send count unchanged. -/
theorem sendCount_congr (l₁ l₂ : List WorkerPC) (w w' : WorkerPC)
    (h : isSend w = isSend w') :
    sendCount (l₁ ++ w' :: l₂) = sendCount (l₁ ++ w :: l₂) := by
  simp [sendCount, List.countP_append, List.countP_cons, h]

/-- Moving a worker into the post-gate state raises the send count by one. -/
theorem sendCount_succ (l₁ l₂ : List WorkerPC) (w : WorkerPC) (it : QueueItem)
    (r : CrawlResult) (h : isSend w = false) :
    sendCount (l₁ ++ WorkerPC.sendReady it r :: l₂) = sendCount (l₁ ++ w :: l₂) + 1 := by
  have hw : isSend (WorkerPC.sendReady it r) = true := rfl
  simp [sendCount, List.countP_append, List.countP_cons, h, hw]
  omega

/-- Moving a worker out of the post-gate state lowers the send count by one. -/
theorem sendCount_pred (l₁ l₂ : List WorkerPC) (w' : WorkerPC) (it : QueueItem)
    (r : CrawlResult) (h : isSend w' = false) :
    sendCount (l₁ ++ w' :: l₂) + 1 = sendCount (l₁ ++ WorkerPC.sendReady it r :: l₂) := by
  have hw : isSend (WorkerPC.sendReady it r) = true := rfl
  simp [sendCount, List.countP_append, List.countP_cons, h, hw]
  omega

/-- The capacity invariant only watches the emitted list, the workers and the
counter; a step that reshuffles the worker list without changing its send
count preserves it. -/
theorem invCap_of_workers (cfg : CrawlConfig) (s : EState) (ws : List WorkerPC)
    (hsc : sendCount ws = sendCount s.workers) (hs : InvCap cfg s) :
    (s.emitted.length : Int) + sendCount ws ≤ s.resultsCount ∧
    (s.emitted.length : Int) + sendCount ws ≤ cfg.maxLinks := by
  rw [hsc]
  exact hs

/-- Every step of the engine preserves the capacity invariant. -/
theorem invCap_step (cfg : CrawlConfig) (fetch : String → Option CrawlResult)
    (s t : EState) (hst : Step cfg fetch s t) (hs : InvCap cfg s) : InvCap cfg t := by
  cases hst with
  | cancel => exact hs
  | forceDone hc => exact hs
  | workerExit l₁ l₂ hw hcd =>
    exact invCap_of_workers cfg s _
      (by rw [hw]; exact sendCount_congr l₁ l₂ .idle .exited rfl) hs
  | dequeue l₁ l₂ it q hw hq =>
    exact invCap_of_workers cfg s _
      (by rw [hw]; exact sendCount_congr l₁ l₂ .idle (.working it) rfl) hs
  | dropDepth l₁ l₂ it hw hdep =>
    exact invCap_of_workers cfg s _
      (by rw [hw]; exact sendCount_congr l₁ l₂ (.working it) .idle rfl) hs
  | readSeen l₁ l₂ it hw hdep hmem =>
    exact invCap_of_workers cfg s _
      (by rw [hw]; exact sendCount_congr l₁ l₂ (.working it) .idle rfl) hs
  | readUnseen l₁ l₂ it hw hdep hmem =>
    exact invCap_of_workers cfg s _
      (by rw [hw]; exact sendCount_congr l₁ l₂ (.working it) (.claimed it) rfl) hs
  | claimFetchNone l₁ l₂ it hw hf =>
    exact invCap_of_workers cfg s _
      (by rw [hw]; exact sendCount_congr l₁ l₂ (.claimed it) .idle rfl) hs
  | claimFetchSome l₁ l₂ it r hw hf =>
    refine invCap_of_workers cfg s _ ?_ hs
    rw [hw]
    exact sendCount_congr l₁ l₂ (.claimed it) (.fetched it (withMeta r it.depth it.parent)) rfl
  | gateFail l₁ l₂ it r hw hg =>
    obtain ⟨h1, h2⟩ := hs
    rw [hw] at h1 h2
    have hc := sendCount_congr l₁ l₂ (.fetched it r) .idle rfl
    constructor
    · show (s.emitted.length : Int) + sendCount (l₁ ++ WorkerPC.idle :: l₂) ≤ s.resultsCount + 1
      rw [hc]; omega
    · show (s.emitted.length : Int) + sendCount (l₁ ++ WorkerPC.idle :: l₂) ≤ cfg.maxLinks
      rw [hc]; omega
  | gatePass l₁ l₂ it r hw hg =>
    obtain ⟨h1, h2⟩ := hs
    rw [hw] at h1 h2
    have hc := sendCount_succ l₁ l₂ (.fetched it r) it r rfl
    constructor
    · show (s.emitted.length : Int) + sendCount (l₁ ++ WorkerPC.sendReady it r :: l₂)
        ≤ s.resultsCount + 1
      rw [hc]; omega
    · show (s.emitted.length : Int) + sendCount (l₁ ++ WorkerPC.sendReady it r :: l₂)
        ≤ cfg.maxLinks
      rw [hc]; omega
  | emitAbort l₁ l₂ it r hw hcd =>
    obtain ⟨h1, h2⟩ := hs
    rw [hw] at h1 h2
    have hc := sendCount_pred l₁ l₂ .idle it r rfl
    constructor
    · show (s.emitted.length : Int) + sendCount (l₁ ++ WorkerPC.idle :: l₂) ≤ s.resultsCount
      omega
    · show (s.emitted.length : Int) + sendCount (l₁ ++ WorkerPC.idle :: l₂) ≤ cfg.maxLinks
      omega
  | emitSend l₁ l₂ it r hw =>
    obtain ⟨h1, h2⟩ := hs
    rw [hw] at h1 h2
    have hc := sendCount_pred l₁ l₂ (.postEmit it (r.links.getD [])) it r rfl
    constructor
    · show ((s.emitted ++ [r]).length : Int)
          + sendCount (l₁ ++ WorkerPC.postEmit it (r.links.getD []) :: l₂) ≤ s.resultsCount
      rw [List.length_append, List.length_singleton]
      push_cast
      omega
    · show ((s.emitted ++ [r]).length : Int)
          + sendCount (l₁ ++ WorkerPC.postEmit it (r.links.getD []) :: l₂) ≤ cfg.maxLinks
      rw [List.length_append, List.length_singleton]
      push_cast
      omega
  | expandFail l₁ l₂ it ls hw hg =>
    exact invCap_of_workers cfg s _
      (by rw [hw]; exact sendCount_congr l₁ l₂ (.postEmit it ls) .idle rfl) hs
  | expandPass l₁ l₂ it ls hw hg1 hg2 =>
    exact invCap_of_workers cfg s _
      (by rw [hw]; exact sendCount_congr l₁ l₂ (.postEmit it ls) (.expanding it ls) rfl) hs
  | childSeen l₁ l₂ it l ls hw hmem =>
    exact invCap_of_workers cfg s _
      (by rw [hw]; exact sendCount_congr l₁ l₂ (.expanding it (l :: ls)) (.expanding it ls) rfl) hs
  | childUnseen l₁ l₂ it l ls hw hmem =>
    exact invCap_of_workers cfg s _
      (by rw [hw]; exact sendCount_congr l₁ l₂ (.expanding it (l :: ls)) (.childAdd it ls l) rfl) hs
  | childSend l₁ l₂ it l ls hw hcap =>
    exact invCap_of_workers cfg s _
      (by rw [hw]; exact sendCount_congr l₁ l₂ (.childAdd it ls l) (.expanding it ls) rfl) hs
  | childAbort l₁ l₂ it l ls hw hcd =>
    exact invCap_of_workers cfg s _
      (by rw [hw]; exact sendCount_congr l₁ l₂ (.childAdd it ls l) .idle rfl) hs
  | expandDone l₁ l₂ it hw =>
    exact invCap_of_workers cfg s _
      (by rw [hw]; exact sendCount_congr l₁ l₂ (.expanding it []) .idle rfl) hs
  | monitorDrainStart hm hall => exact hs
  | drainOne it q hm hc hq => exact hs
  | drainFinish hm hor => exact hs
  | closeOut hm hif => exact hs

/-- No worker of a fresh pool holds an emission token. -/
theorem sendCount_replicate_idle (n : Nat) :
    sendCount (List.replicate n WorkerPC.idle) = 0 := by
  rw [sendCount, List.countP_eq_zero]
  intro a ha
  rw [List.eq_of_mem_replicate ha]
  decide

/-- Every reachable state of the engine satisfies the capacity invariant. -/
theorem reachable_invCap (cfg : CrawlConfig) (fetch : String → Option CrawlResult)
    (hml : 0 ≤ cfg.maxLinks) (s : EState) (h : Reachable cfg fetch s) :
    InvCap cfg s := by
  induction h with
  | refl =>
    constructor
    · show ((([] : List CrawlResult)).length : Int)
        + sendCount (List.replicate cfg.maxConcurrency.toNat WorkerPC.idle) ≤ 0
      rw [sendCount_replicate_idle]
      simp
    · show ((([] : List CrawlResult)).length : Int)
        + sendCount (List.replicate cfg.maxConcurrency.toNat WorkerPC.idle) ≤ cfg.maxLinks
      rw [sendCount_replicate_idle]
      simpa using hml
  | tail hsteps hstep ih =>
    exact invCap_step cfg fetch _ _ hstep ih

/-- C1: for every run of `CrawlStream` (any configuration with a non-negative
page cap, any fetch behaviour, any interleaving), the number of records sent
on the output stream never exceeds `max_pages`: the atomic increment-and-test
of `results_count` grants at most `max_pages` emission tokens, the counter is
never decremented, and a worker that observes the overflow drops its record
without emitting. -/
theorem crawlStream_emitted_le_maxLinks (cfg : CrawlConfig)
    (fetch : String → Option CrawlResult) (s : EState)
    (hml : 0 ≤ cfg.maxLinks) (h : Reachable cfg fetch s) :
    (s.emitted.length : Int) ≤ cfg.maxLinks := by
  have hinv := reachable_invCap cfg fetch hml s h
  have h2 := hinv.2
  omega

/-- C1 witness: the cap theorem applied to the scenario configuration at the
initial state. -/
theorem crawlStream_emitted_le_maxLinks_witness :
    (0 : Int) ≤ cfgScenario.maxLinks ∧
    ((initState cfgScenario).emitted.length : Int) ≤ cfgScenario.maxLinks := by
  refine ⟨by decide, ?_⟩
  exact crawlStream_emitted_le_maxLinks cfgScenario fetchScenario
    (initState cfgScenario) (by decide) Relation.ReflTransGen.refl

/-- Every step of the engine preserves the single-close invariant. -/
theorem invClose_step (cfg : CrawlConfig) (fetch : String → Option CrawlResult)
    (s t : EState) (hst : Step cfg fetch s t) (hs : InvClose s) : InvClose t := by
  cases hst with
  | monitorDrainStart hm hall =>
    refine ⟨fun h => MonitorPC.noConfusion h, fun _ => ?_⟩
    exact hs.2 (by rw [hm]; decide)
  | drainFinish hm hor =>
    refine ⟨fun h => MonitorPC.noConfusion h, fun _ => ?_⟩
    exact hs.2 (by rw [hm]; decide)
  | closeOut hm hif =>
    have hne : s.monitor ≠ MonitorPC.finished := by rw [hm]; decide
    obtain ⟨hc0, ho0⟩ := hs.2 hne
    constructor
    · intro _
      constructor
      · show (if s.onceUsed then s.closeEvents else s.closeEvents + 1) = 1
        rw [ho0, hc0]
        simp
      · rfl
    · intro h
      exact absurd rfl h
  | cancel => exact hs
  | forceDone hc => exact hs
  | workerExit l₁ l₂ hw hcd => exact hs
  | dequeue l₁ l₂ it q hw hq => exact hs
  | dropDepth l₁ l₂ it hw hdep => exact hs
  | readSeen l₁ l₂ it hw hdep hmem => exact hs
  | readUnseen l₁ l₂ it hw hdep hmem => exact hs
  | claimFetchNone l₁ l₂ it hw hf => exact hs
  | claimFetchSome l₁ l₂ it r hw hf => exact hs
  | gateFail l₁ l₂ it r hw hg => exact hs
  | gatePass l₁ l₂ it r hw hg => exact hs
  | emitAbort l₁ l₂ it r hw hcd => exact hs
  | emitSend l₁ l₂ it r hw => exact hs
  | expandFail l₁ l₂ it ls hw hg => exact hs
  | expandPass l₁ l₂ it ls hw hg1 hg2 => exact hs
  | childSeen l₁ l₂ it l ls hw hmem => exact hs
  | childUnseen l₁ l₂ it l ls hw hmem => exact hs
  | childSend l₁ l₂ it l ls hw hcap => exact hs
  | childAbort l₁ l₂ it l ls hw hcd => exact hs
  | expandDone l₁ l₂ it hw => exact hs
  | drainOne it q hm hc hq => exact hs

/-- Every reachable state of the engine satisfies the single-close
invariant. -/
theorem reachable_invClose (cfg : CrawlConfig) (fetch : String → Option CrawlResult)
    (s : EState) (h : Reachable cfg fetch s) : InvClose s := by
  induction h with
  | refl =>
    exact ⟨fun h => MonitorPC.noConfusion h, fun _ => ⟨rfl, rfl⟩⟩
  | tail hsteps hstep ih =>
    exact invClose_step cfg fetch _ _ hstep ih

/-- C3: in every run of `CrawlStream` (any configuration, fetch behaviour and
interleaving), the output stream is closed at most once — the `sync.Once`
guard makes a second close attempt a no-op — and it is closed exactly once by
the time the termination supervisor completes its protocol, so the consumer
observes exactly one end-of-stream marker. -/
theorem crawlStream_closed_once (cfg : CrawlConfig)
    (fetch : String → Option CrawlResult) (s : EState) (h : Reachable cfg fetch s) :
    s.closeEvents ≤ 1 ∧ (s.monitor = MonitorPC.finished → s.closeEvents = 1) := by
  have hinv := reachable_invClose cfg fetch s h
  by_cases hm : s.monitor = MonitorPC.finished
  · have hc := (hinv.1 hm).1
    exact ⟨by omega, fun _ => hc⟩
  · have hc := (hinv.2 hm).1
    exact ⟨by omega, fun hf => absurd hf hm⟩

/-- C3 witness: the single-close theorem applied to the race configuration at
the initial state. -/
theorem crawlStream_closed_once_witness :
    (initState cfgRace).closeEvents ≤ 1 ∧
    ((initState cfgRace).monitor = MonitorPC.finished →
      (initState cfgRace).closeEvents = 1) :=
  crawlStream_closed_once cfgRace fetchRace (initState cfgRace)
    Relation.ReflTransGen.refl

/-- C6 witness: the depth-zero theorem applied to a configuration with
`max_depth = 0` whose seed fetch fails in transport. -/
theorem depth_zero_emits_seed_only_witness :
    cfgDepthZero.maxDepth = 0 ∧ (1 : Int) ≤ cfgDepthZero.maxLinks ∧
    (seqRun cfgDepthZero fetchDepthZero 1 (seqInit cfgDepthZero)).emitted
      = [withMeta rFailSeed 0 ""] := by
  refine ⟨rfl, by decide, ?_⟩
  exact depth_zero_emits_seed_only cfgDepthZero fetchDepthZero rFailSeed 0 rfl
    (by decide) rfl

/-- C2: evaluation of the engine at the failing interleaving.  Starting from
the seed `http://h` whose page links to both `http://h/x` and `http://h/x/`
(the same URL up to normalization, which `extractLinks` does not collapse),
two workers dequeue the two items, BOTH pass the read-lock visited check
before either inserts under the write lock — the code re-checks nothing at
insertion time (crawler.go:315-317) — and both proceed to fetch, pass the
counter gate and emit.  The reachable state's output stream carries two
records whose URLs have the same normalized form `http://h/x`, violating
emit-at-most-once. -/
theorem crawlStream_duplicate_emission :
    ∃ s, Reachable cfgRace fetchRace s ∧
      s.emitted.map (fun r => normalizeURL r.url)
        = ["http://h", "http://h/x", "http://h/x"] := by
  have h0 : Reachable cfgRace fetchRace (initState cfgRace) := Relation.ReflTransGen.refl
  have h1 := Relation.ReflTransGen.tail h0
    (Step.dequeue (initState cfgRace) [] [WorkerPC.idle] ⟨"http://h", 0, ""⟩ [] rfl rfl)
  have h2 := Relation.ReflTransGen.tail h1
    (Step.readUnseen _ [] [WorkerPC.idle] ⟨"http://h", 0, ""⟩ rfl (by decide) (by decide))
  have h3 := Relation.ReflTransGen.tail h2
    (Step.claimFetchSome _ [] [WorkerPC.idle] ⟨"http://h", 0, ""⟩ rSeed rfl rfl)
  have h4 := Relation.ReflTransGen.tail h3
    (Step.gatePass _ [] [WorkerPC.idle] ⟨"http://h", 0, ""⟩ (withMeta rSeed 0 "") rfl
      (by decide))
  have h5 := Relation.ReflTransGen.tail h4
    (Step.emitSend _ [] [WorkerPC.idle] ⟨"http://h", 0, ""⟩ (withMeta rSeed 0 "") rfl)
  have h6 := Relation.ReflTransGen.tail h5
    (Step.expandPass _ [] [WorkerPC.idle] ⟨"http://h", 0, ""⟩
      ["http://h/x", "http://h/x/"] rfl (by decide) (by decide))
  have h7 := Relation.ReflTransGen.tail h6
    (Step.childUnseen _ [] [WorkerPC.idle] ⟨"http://h", 0, ""⟩ "http://h/x"
      ["http://h/x/"] rfl (by decide))
  have h8 := Relation.ReflTransGen.tail h7
    (Step.childSend _ [] [WorkerPC.idle] ⟨"http://h", 0, ""⟩ "http://h/x"
      ["http://h/x/"] rfl (by decide))
  have h9 := Relation.ReflTransGen.tail h8
    (Step.childUnseen _ [] [WorkerPC.idle] ⟨"http://h", 0, ""⟩ "http://h/x/" [] rfl
      (by decide))
  have h10 := Relation.ReflTransGen.tail h9
    (Step.childSend _ [] [WorkerPC.idle] ⟨"http://h", 0, ""⟩ "http://h/x/" [] rfl
      (by decide))
  have h11 := Relation.ReflTransGen.tail h10
    (Step.expandDone _ [] [WorkerPC.idle] ⟨"http://h", 0, ""⟩ rfl)
  have h12 := Relation.ReflTransGen.tail h11
    (Step.dequeue _ [] [WorkerPC.idle] ⟨"http://h/x", 1, "http://h"⟩
      [⟨"http://h/x/", 1, "http://h"⟩] rfl rfl)
  have h13 := Relation.ReflTransGen.tail h12
    (Step.dequeue _ [WorkerPC.working ⟨"http://h/x", 1, "http://h"⟩] []
      ⟨"http://h/x/", 1, "http://h"⟩ [] rfl rfl)
  have h14 := Relation.ReflTransGen.tail h13
    (Step.readUnseen _ [] [WorkerPC.working ⟨"http://h/x/", 1, "http://h"⟩]
      ⟨"http://h/x", 1, "http://h"⟩ rfl (by decide) (by decide))
  have h15 := Relation.ReflTransGen.tail h14
    (Step.readUnseen _ [WorkerPC.claimed ⟨"http://h/x", 1, "http://h"⟩] []
      ⟨"http://h/x/", 1, "http://h"⟩ rfl (by decide) (by decide))
  have h16 := Relation.ReflTransGen.tail h15
    (Step.claimFetchSome _ [] [WorkerPC.claimed ⟨"http://h/x/", 1, "http://h"⟩]
      ⟨"http://h/x", 1, "http://h"⟩ rX rfl rfl)
  have h17 := Relation.ReflTransGen.tail h16
    (Step.claimFetchSome _
      [WorkerPC.fetched ⟨"http://h/x", 1, "http://h"⟩ (withMeta rX 1 "http://h")] []
      ⟨"http://h/x/", 1, "http://h"⟩ rXSlash rfl rfl)
  have h18 := Relation.ReflTransGen.tail h17
    (Step.gatePass _ []
      [WorkerPC.fetched ⟨"http://h/x/", 1, "http://h"⟩ (withMeta rXSlash 1 "http://h")]
      ⟨"http://h/x", 1, "http://h"⟩ (withMeta rX 1 "http://h") rfl (by decide))
  have h19 := Relation.ReflTransGen.tail h18
    (Step.gatePass _
      [WorkerPC.sendReady ⟨"http://h/x", 1, "http://h"⟩ (withMeta rX 1 "http://h")] []
      ⟨"http://h/x/", 1, "http://h"⟩ (withMeta rXSlash 1 "http://h") rfl (by decide))
  have h20 := Relation.ReflTransGen.tail h19
    (Step.emitSend _ []
      [WorkerPC.sendReady ⟨"http://h/x/", 1, "http://h"⟩ (withMeta rXSlash 1 "http://h")]
      ⟨"http://h/x", 1, "http://h"⟩ (withMeta rX 1 "http://h") rfl)
  have h21 := Relation.ReflTransGen.tail h20
    (Step.emitSend _
      [WorkerPC.postEmit ⟨"http://h/x", 1, "http://h"⟩
        ((withMeta rX 1 "http://h").links.getD [])] []
      ⟨"http://h/x/", 1, "http://h"⟩ (withMeta rXSlash 1 "http://h") rfl)
  exact ⟨_, h21, by decide⟩

/-- C10 witness: the defaulting theorem applied to a JSON configuration whose
numeric fields are all explicitly zero. -/
theorem setDefaults_zero_fields_witness :
    cfgAllZero.maxDepth = 0 ∧ (setDefaults cfgAllZero).maxDepth = 3 ∧
    (setDefaults cfgAllZero).maxLinks = 100 := by
  refine ⟨rfl, ?_, ?_⟩
  · exact (setDefaults_zero_fields cfgAllZero).1 rfl
  · exact ((setDefaults_zero_fields cfgAllZero).2.1 rfl).1
